import Mathlib

/-!
# Verification of the sistema-obras backend core (src/main.py)

Shallow embedding of the CNPJ validation algorithm, the identifier
normalization, and the company/site create/update routes of
`src/main.py`, together with proofs of the specification's claims.

Strings are modelled as `List Char`; Python's `re.sub(r"\D", "", s)`
is modelled over the ASCII decimal digits (`Char.isDigit`), and
Python's `str.upper` by the Basic Latin fragment `Char.toUpper`,
which agrees with it on ASCII text.
-/

namespace SistemaObras

/-- Embedding of `re.sub(r"\D", "", s)` (line 38 / 76 / 97 / 125 / 157):
keep only decimal digit characters, in order. -/
def stripNonDigits (s : List Char) : List Char := s.filter Char.isDigit

/-- Embedding of Python `int(ch)` for a single digit character. -/
def charToDigit (c : Char) : Nat := c.toNat - 48

/-- The decimal digit character for `d < 10` (used to build digit strings). -/
def digitToChar (d : Nat) : Char := Char.ofNat (48 + d)

/-- The loop of `_calc` (src/main.py lines 45-51): fold over the digit
characters, multiplying by the current weight `pos`, decrementing `pos`
and resetting it to 9 when it falls below 2. -/
def calcGo : List Char → Nat → Nat → Nat
  | [], _, total => total
  | ch :: rest, pos, total =>
    let pos1 := pos - 1
    calcGo rest (if pos1 < 2 then 9 else pos1) (total + charToDigit ch * pos)

/-- Embedding of `_calc` (src/main.py lines 44-53): weighted sum starting
with weight `len(base) - 7`, reduced mod 11, mapped to a check digit. -/
def calcDigit (base : List Char) : Nat :=
  let total := calcGo base (base.length - 7) 0
  let r := total % 11
  if r < 2 then 0 else 11 - r

/-- Embedding of Python `s.endswith(suf)`. -/
def listEndsWith (s suf : List Char) : Bool :=
  s.drop (s.length - suf.length) == suf

/-- Embedding of `is_valid_cnpj` (src/main.py lines 37-58). -/
def is_valid_cnpj (cnpj : List Char) : Bool :=
  let c := stripNonDigits cnpj
  if c.length ≠ 14 then false
  else if c = List.replicate 14 (c.headD ' ') then false
  else
    let base := c.take 12
    let dig1 := calcDigit base
    let dig2 := calcDigit (base ++ Nat.toDigits 10 dig1)
    listEndsWith c (Nat.toDigits 10 dig1 ++ Nat.toDigits 10 dig2)

/-! ## The textbook CNPJ oracle, from the specification's words (§4.3) -/

/-- Spec §4.3 step 5: weights for the first check digit. -/
def textbookWeights1 : List Nat := [5, 4, 3, 2, 9, 8, 7, 6, 5, 4, 3, 2]

/-- Spec §4.3 step 6: weights for the second check digit. -/
def textbookWeights2 : List Nat := [6, 5, 4, 3, 2, 9, 8, 7, 6, 5, 4, 3, 2]

/-- Spec §4.3: sum `digit * weight`, take the remainder mod 11, map a
remainder below 2 to 0 and otherwise to 11 minus the remainder. -/
def textbookCheckDigit (ds ws : List Nat) : Nat :=
  let r := (List.zipWith (fun d w => d * w) ds ws).sum % 11
  if r < 2 then 0 else 11 - r

/-- The textbook CNPJ check-digit recomputation over a 14-digit sequence,
written from the specification's words (§4.3 steps 4-7). -/
def textbook_cnpj (d : List Nat) : Bool :=
  let base := d.take 12
  let dv1 := textbookCheckDigit base textbookWeights1
  let dv2 := textbookCheckDigit (base ++ [dv1]) textbookWeights2
  d.drop 12 == [dv1, dv2]

/-! ## Digit-character helper lemmas -/

theorem charToDigit_digitToChar {a : Nat} (h : a < 10) :
    charToDigit (digitToChar a) = a := by
  interval_cases a <;> decide

theorem isDigit_digitToChar {a : Nat} (h : a < 10) :
    (digitToChar a).isDigit = true := by
  interval_cases a <;> decide

theorem toDigits_single {n : Nat} (h : n < 10) :
    Nat.toDigits 10 n = [digitToChar n] := by
  interval_cases n <;> rfl

theorem map_charToDigit_map_digitToChar (l : List Nat) (hl : ∀ x ∈ l, x < 10) :
    (l.map digitToChar).map charToDigit = l := by
  rw [List.map_map]
  calc l.map (charToDigit ∘ digitToChar)
      = l.map id := List.map_congr_left fun a ha => charToDigit_digitToChar (hl a ha)
    _ = l := List.map_id l

theorem map_digitToChar_inj {ds es : List Nat} (hds : ∀ x ∈ ds, x < 10)
    (hes : ∀ x ∈ es, x < 10) :
    ds.map digitToChar = es.map digitToChar ↔ ds = es := by
  constructor
  · intro h
    have := congrArg (List.map charToDigit) h
    rwa [map_charToDigit_map_digitToChar ds hds,
      map_charToDigit_map_digitToChar es hes] at this
  · intro h; rw [h]

theorem stripNonDigits_map (ds : List Nat) (h : ∀ x ∈ ds, x < 10) :
    stripNonDigits (ds.map digitToChar) = ds.map digitToChar := by
  unfold stripNonDigits
  refine List.filter_eq_self.mpr ?_
  intro c hc
  obtain ⟨a, ha, rfl⟩ := List.mem_map.mp hc
  exact isDigit_digitToChar (h a ha)

/-! ## Bridging lemmas between the `_calc` loop and the textbook weights -/

/-- The sequence of weights produced by the `_calc` loop, starting at `pos`,
for `n` digits: decrement, resetting to 9 when the weight falls below 2. -/
def weightSeq : Nat → Nat → List Nat
  | _, 0 => []
  | pos, n + 1 => pos :: weightSeq (if pos - 1 < 2 then 9 else pos - 1) n

theorem calcGo_map (ds : List Nat) (pos t : Nat) (h : ∀ x ∈ ds, x < 10) :
    calcGo (ds.map digitToChar) pos t =
      t + (List.zipWith (fun d w => d * w) ds (weightSeq pos ds.length)).sum := by
  induction ds generalizing pos t with
  | nil => simp [calcGo, weightSeq]
  | cons d rest ih =>
    have hd : d < 10 := h d (List.mem_cons_self d rest)
    have hrest : ∀ x ∈ rest, x < 10 := fun x hx => h x (List.mem_cons_of_mem d hx)
    simp only [List.map_cons, calcGo, List.length_cons, weightSeq, List.zipWith_cons_cons,
      List.sum_cons, ih _ _ hrest, charToDigit_digitToChar hd]
    rw [Nat.add_assoc]

theorem calcDigit_map (ds : List Nat) (h : ∀ x ∈ ds, x < 10) :
    calcDigit (ds.map digitToChar) =
      textbookCheckDigit ds (weightSeq (ds.length - 7) ds.length) := by
  unfold calcDigit textbookCheckDigit
  rw [List.length_map, calcGo_map ds _ 0 h, Nat.zero_add]

theorem calcDigit_le_nine (base : List Char) : calcDigit base ≤ 9 := by
  dsimp only [calcDigit]
  have h : calcGo base (base.length - 7) 0 % 11 < 11 :=
    Nat.mod_lt _ (by omega)
  split <;> omega

theorem textbookCheckDigit_le_nine (ds ws : List Nat) :
    textbookCheckDigit ds ws ≤ 9 := by
  dsimp only [textbookCheckDigit]
  have h : (List.zipWith (fun d w => d * w) ds ws).sum % 11 < 11 :=
    Nat.mod_lt _ (by omega)
  split <;> omega

theorem weightSeq_twelve : weightSeq 5 12 = textbookWeights1 := by decide

theorem weightSeq_thirteen : weightSeq 6 13 = textbookWeights2 := by decide

/-- C1: on every 14-digit string whose digits are not all identical,
`is_valid_cnpj` agrees with the textbook CNPJ check-digit recomputation
(weights 5,4,3,2,9,8,7,6,5,4,3,2 then 6,5,4,3,2,9,8,7,6,5,4,3,2, sum
mod 11, remainder below 2 mapped to 0, otherwise to 11 minus it). -/
theorem claim_C1_matches_textbook (d : List Nat) (hlen : d.length = 14)
    (hdig : ∀ x ∈ d, x < 10)
    (hne : d ≠ List.replicate 14 (d.headD 0)) :
    is_valid_cnpj (d.map digitToChar) = textbook_cnpj d := by
  obtain ⟨a, t, rfl⟩ : ∃ a t, d = a :: t := by
    cases d with
    | nil => simp at hlen
    | cons a t => exact ⟨a, t, rfl⟩
  have htake : ∀ x ∈ (a :: t).take 12, x < 10 :=
    fun x hx => hdig x (List.take_subset 12 (a :: t) hx)
  have hdrop : ∀ x ∈ (a :: t).drop 12, x < 10 :=
    fun x hx => hdig x (List.drop_subset 12 (a :: t) hx)
  have hlen12 : ((a :: t).take 12).length = 12 := by rw [List.length_take]; omega
  have hdv1_lt : textbookCheckDigit ((a :: t).take 12) textbookWeights1 < 10 := by
    have := textbookCheckDigit_le_nine ((a :: t).take 12) textbookWeights1; omega
  have hbase13 : ∀ x ∈ (a :: t).take 12 ++
      [textbookCheckDigit ((a :: t).take 12) textbookWeights1], x < 10 := by
    intro x hx
    rcases List.mem_append.mp hx with hx | hx
    · exact htake x hx
    · rw [List.mem_singleton] at hx; omega
  have hdv2_lt : textbookCheckDigit ((a :: t).take 12 ++
      [textbookCheckDigit ((a :: t).take 12) textbookWeights1]) textbookWeights2 < 10 := by
    have := textbookCheckDigit_le_nine ((a :: t).take 12 ++
      [textbookCheckDigit ((a :: t).take 12) textbookWeights1]) textbookWeights2
    omega
  have hc1 : calcDigit (((a :: t).take 12).map digitToChar) =
      textbookCheckDigit ((a :: t).take 12) textbookWeights1 := by
    rw [calcDigit_map _ htake, hlen12]
    norm_num [weightSeq_twelve]
  have hc2 : calcDigit (((a :: t).take 12).map digitToChar ++
      [digitToChar (textbookCheckDigit ((a :: t).take 12) textbookWeights1)]) =
      textbookCheckDigit ((a :: t).take 12 ++
        [textbookCheckDigit ((a :: t).take 12) textbookWeights1]) textbookWeights2 := by
    have hmap : ((a :: t).take 12).map digitToChar ++
        [digitToChar (textbookCheckDigit ((a :: t).take 12) textbookWeights1)] =
        ((a :: t).take 12 ++
          [textbookCheckDigit ((a :: t).take 12) textbookWeights1]).map digitToChar := by
      rw [List.map_append, List.map_singleton]
    rw [hmap, calcDigit_map _ hbase13, List.length_append, hlen12]
    norm_num [weightSeq_thirteen]
  have ha10 : a < 10 := hdig a (List.mem_cons_self a t)
  have hrepl10 : ∀ x ∈ List.replicate 14 a, x < 10 := by
    intro x hx
    rw [List.eq_of_mem_replicate hx]
    exact ha10
  have hrep : List.map digitToChar (a :: t) =
      List.replicate 14 (digitToChar a) ↔ (a :: t) = List.replicate 14 a := by
    rw [← List.map_replicate]
    exact map_digitToChar_inj hdig hrepl10
  simp only [List.headD_cons] at hne
  unfold is_valid_cnpj textbook_cnpj
  rw [stripNonDigits_map _ hdig]
  rw [if_neg (show ¬(List.map digitToChar (a :: t)).length ≠ 14 by
    rw [List.length_map, hlen]; exact fun h => h rfl)]
  rw [show (List.map digitToChar (a :: t)).headD ' ' = digitToChar a from rfl]
  rw [if_neg (fun h => hne (hrep.mp h))]
  dsimp only
  rw [← List.map_take, hc1,
    toDigits_single hdv1_lt, hc2, toDigits_single hdv2_lt]
  unfold listEndsWith
  simp only [List.length_map, hlen, List.singleton_append, List.length_cons,
    List.length_nil]
  rw [show (14 : Nat) - 2 = 12 by norm_num, ← List.map_drop]
  have hpair10 : ∀ x ∈ [textbookCheckDigit ((a :: t).take 12) textbookWeights1,
      textbookCheckDigit ((a :: t).take 12 ++
        [textbookCheckDigit ((a :: t).take 12) textbookWeights1]) textbookWeights2],
      x < 10 := by
    intro x hx
    rcases List.mem_cons.mp hx with rfl | hx
    · omega
    · rw [List.mem_singleton] at hx; omega
  apply Bool.eq_iff_iff.mpr
  simp only [beq_iff_eq]
  have hmap2 : [digitToChar (textbookCheckDigit ((a :: t).take 12) textbookWeights1),
      digitToChar (textbookCheckDigit ((a :: t).take 12 ++
        [textbookCheckDigit ((a :: t).take 12) textbookWeights1]) textbookWeights2)] =
      List.map digitToChar [textbookCheckDigit ((a :: t).take 12) textbookWeights1,
        textbookCheckDigit ((a :: t).take 12 ++
          [textbookCheckDigit ((a :: t).take 12) textbookWeights1]) textbookWeights2] := rfl
  rw [hmap2]
  exact map_digitToChar_inj hdrop hpair10

/-- Witness for C1: the equivalence applied to the digits of
`"11222333000181"`. -/
theorem claim_C1_witness :
    is_valid_cnpj (List.map digitToChar [1, 1, 2, 2, 2, 3, 3, 3, 0, 0, 0, 1, 8, 1]) =
      textbook_cnpj [1, 1, 2, 2, 2, 3, 3, 3, 0, 0, 0, 1, 8, 1] :=
  claim_C1_matches_textbook _ (by decide) (by decide) (by decide)

/-- The known valid CNPJ from the spec's test battery. -/
def goodCNPJ : List Char :=
  ['1', '1', '2', '2', '2', '3', '3', '3', '0', '0', '0', '1', '8', '1']

/-- C2: `is_valid_cnpj "11222333000181"` returns true, and replacing any
single digit of that string by any different digit yields a string on
which `is_valid_cnpj` returns false. -/
theorem claim_C2_single_digit_detection :
    is_valid_cnpj goodCNPJ = true ∧
    ∀ i : Fin 14, ∀ v : Fin 10,
      digitToChar v.val ≠ goodCNPJ.getD i.val ' ' →
      is_valid_cnpj (goodCNPJ.set i.val (digitToChar v.val)) = false := by
  decide

/-- Witness for C2: a concrete single-digit mutation (position 0 set to 2)
is rejected. -/
theorem claim_C2_witness :
    is_valid_cnpj (goodCNPJ.set 0 (digitToChar 2)) = false :=
  claim_C2_single_digit_detection.2 ⟨0, by omega⟩ ⟨2, by omega⟩ (by decide)

/-- C3: every 14-character string of one repeated decimal digit is rejected
by `is_valid_cnpj`, in particular `"11111111111111"`. -/
theorem claim_C3_repeated_digit_rejected :
    (∀ k : Fin 10, is_valid_cnpj (List.replicate 14 (digitToChar k.val)) = false) ∧
    is_valid_cnpj (List.replicate 14 '1') = false := by
  decide

/-- C4: any input whose digits, after removing the non-digit characters,
number anything other than exactly 14 is rejected by `is_valid_cnpj`. -/
theorem claim_C4_wrong_length_rejected (s : List Char)
    (h : (stripNonDigits s).length ≠ 14) : is_valid_cnpj s = false := by
  simp [is_valid_cnpj, h]

/-- Witness for C4: the one-character string `"1"` is rejected. -/
theorem claim_C4_witness : is_valid_cnpj ['1'] = false :=
  claim_C4_wrong_length_rejected ['1'] (by decide)

/-! ## Data model: table rows, request bodies, HTTP errors

The Supabase tables are modelled as lists of rows; a route is a function
from the current table contents (and the request) to the table contents
after the request together with the HTTP outcome. Returning the input
table unchanged models a request that issues no insert/update. -/

/-- A row of the `empresas` table. -/
structure EmpresaRow where
  id : Nat
  numero : List Char
  nome : List Char
  documento : List Char
  created_at : Nat
deriving DecidableEq

/-- A row of the `obras` table. -/
structure ObraRow where
  id : Nat
  empresa_id : Nat
  numero : List Char
  nome : List Char
  bloco : List Char
  endereco : List Char
  created_at : Nat
deriving DecidableEq

/-- An HTTP error raised by a route: status code and detail message. -/
structure HttpError where
  status : Nat
  detail : String
deriving DecidableEq

/-- The request body of `POST /empresas` (pydantic model `Empresa`,
lines 63-81), before validation. -/
structure EmpresaInput where
  numero : List Char
  nome : List Char
  documento : List Char
deriving DecidableEq

/-- `Empresa.validar_numero` (lines 68-72) together with
`constr(min_length=1, max_length=5)`: `re.fullmatch(r"\d{1,5}", v)`. -/
def validar_numero_empresa (v : List Char) : Bool :=
  1 ≤ v.length && v.length ≤ 5 && v.all Char.isDigit

/-- `Empresa.validar_documento` (lines 74-81): strip non-digits, require
exactly 14 digits passing `is_valid_cnpj`, return the digit string. -/
def validar_documento (v : List Char) : Option (List Char) :=
  let digits := stripNonDigits v
  if digits.length ≠ 14 then none
  else if !is_valid_cnpj digits then none
  else some digits

/-- Pydantic validation of the `Empresa` model: both field validators must
accept; the validated model carries `documento` replaced by its digits. -/
def parseEmpresa (i : EmpresaInput) : Option EmpresaInput :=
  if !validar_numero_empresa i.numero then none
  else
    match validar_documento i.documento with
    | none => none
    | some digits => some { i with documento := digits }

/-- Python `s.zfill(w)` on a digit string: left-pad with `'0'` to width `w`. -/
def zfill (s : List Char) (w : Nat) : List Char :=
  List.replicate (w - s.length) '0' ++ s

/-- `normalize_name` (spec §4.1): the `.upper()` normalization applied to
`nome` in `criar_empresa` / `atualizar_empresa` (lines 124, 154), on the
Basic Latin fragment. -/
def normalize_name (s : List Char) : List Char := s.map Char.toUpper

/-- Embedding of `criar_empresa` (lines 120-143). `now` is the request
timestamp, `newId` the id the store assigns on insert. Returns the table
after the request and the HTTP outcome. -/
def criar_empresa (store : List EmpresaRow) (raw : EmpresaInput)
    (now newId : Nat) : List EmpresaRow × Except HttpError EmpresaRow :=
  match parseEmpresa raw with
  | none => (store, .error ⟨422, "Erro de validação."⟩)
  | some empresa =>
    let numero_norm := zfill empresa.numero 5
    let nome_norm := normalize_name empresa.nome
    let documento_norm := stripNonDigits empresa.documento
    let existing := store.filter (fun r => r.documento = documento_norm)
    if 0 < existing.length then
      (store, .error ⟨400, "CNPJ já cadastrado."⟩)
    else
      let row : EmpresaRow := ⟨newId, numero_norm, nome_norm, documento_norm, now⟩
      (store ++ [row], .ok row)

/-- The request body of `PUT /empresas/{id}` (pydantic model
`EmpresaUpdate`, lines 83-103), before validation. -/
structure EmpresaUpdateInput where
  numero : Option (List Char)
  nome : Option (List Char)
  documento : Option (List Char)
deriving DecidableEq

/-- Pydantic validation of `EmpresaUpdate`: a present `numero` must match
`\d{1,5}`; a present `documento` is replaced by its 14 digits, which must
pass `is_valid_cnpj`. -/
def parseEmpresaUpdate (i : EmpresaUpdateInput) : Option EmpresaUpdateInput :=
  let numeroOk := match i.numero with
    | none => true
    | some v => validar_numero_empresa v
  if !numeroOk then none
  else
    match i.documento with
    | none => some i
    | some v =>
      match validar_documento v with
      | none => none
      | some digits => some { i with documento := some digits }

/-- The store's `update(update_data).eq("id", id)` applied to one row:
fields present in the payload are overwritten, absent ones are kept. -/
def applyEmpresaUpdate (numeroU nomeU documentoU : Option (List Char))
    (r : EmpresaRow) : EmpresaRow :=
  { r with
    numero := numeroU.getD r.numero
    nome := nomeU.getD r.nome
    documento := documentoU.getD r.documento }

/-- The tail of `atualizar_empresa` (lines 167-174): the empty-payload
check, the store update and the not-found check. -/
def atualizarEmpresaCommit (store : List EmpresaRow) (id : Nat)
    (numeroU nomeU documentoU : Option (List Char)) :
    List EmpresaRow × Except HttpError EmpresaRow :=
  if numeroU.isNone && nomeU.isNone && documentoU.isNone then
    (store, .error ⟨400, "Nenhum campo para atualizar."⟩)
  else
    let matched := store.filter (fun r => r.id = id)
    if matched.isEmpty then
      (store, .error ⟨404, "Empresa não encontrada."⟩)
    else
      let store1 := store.map (fun r =>
        if r.id = id then applyEmpresaUpdate numeroU nomeU documentoU r else r)
      (store1, .ok (applyEmpresaUpdate numeroU nomeU documentoU
        (matched.headD ⟨0, [], [], [], 0⟩)))

/-- Embedding of `atualizar_empresa` (lines 145-178). -/
def atualizar_empresa (store : List EmpresaRow) (id : Nat)
    (raw : EmpresaUpdateInput) : List EmpresaRow × Except HttpError EmpresaRow :=
  match parseEmpresaUpdate raw with
  | none => (store, .error ⟨422, "Erro de validação."⟩)
  | some payload =>
    let numeroU := payload.numero.map (fun v => zfill v 5)
    let nomeU := payload.nome.map normalize_name
    match payload.documento with
    | some doc =>
      let doc_norm := stripNonDigits doc
      if !is_valid_cnpj doc_norm then
        (store, .error ⟨400, "CNPJ inválido."⟩)
      else
        let existing := store.filter (fun r => r.documento = doc_norm)
        if existing.any (fun r => r.id ≠ id) then
          (store, .error ⟨400, "CNPJ já cadastrado por outra empresa."⟩)
        else
          atualizarEmpresaCommit store id numeroU nomeU (some doc_norm)
    | none => atualizarEmpresaCommit store id numeroU nomeU none

/-- The request body of `PUT /obras/{id}` (pydantic model `ObraUpdate`,
lines 212-228), before validation. -/
structure ObraUpdateInput where
  numero : Option (List Char)
  nome : Option (List Char)
  bloco : Option (List Char)
  endereco : Option (List Char)
deriving DecidableEq

/-- `ObraUpdate.validar_numero` (lines 218-222): `re.fullmatch(r"\d{1,4}", v)`. -/
def validar_numero_obra (v : List Char) : Bool :=
  1 ≤ v.length && v.length ≤ 4 && v.all Char.isDigit

/-- `ObraUpdate.validar_bloco` (lines 224-228):
`re.fullmatch(r"[A-Za-z0-9]{1,3}", v)`. -/
def validar_bloco (v : List Char) : Bool :=
  1 ≤ v.length && v.length ≤ 3 && v.all Char.isAlphanum

/-- Pydantic validation of `ObraUpdate`: present `numero` and `bloco`
fields must pass their validators. -/
def parseObraUpdate (i : ObraUpdateInput) : Option ObraUpdateInput :=
  let numeroOk := match i.numero with
    | none => true
    | some v => validar_numero_obra v
  let blocoOk := match i.bloco with
    | none => true
    | some v => validar_bloco v
  if !numeroOk || !blocoOk then none else some i

/-- The store's `update(update_data).eq("id", id)` applied to one obra row. -/
def applyObraUpdate (numeroU nomeU blocoU enderecoU : Option (List Char))
    (r : ObraRow) : ObraRow :=
  { r with
    numero := numeroU.getD r.numero
    nome := nomeU.getD r.nome
    bloco := blocoU.getD r.bloco
    endereco := enderecoU.getD r.endereco }

/-- Embedding of `atualizar_obra` (lines 264-285). -/
def atualizar_obra (store : List ObraRow) (id : Nat) (raw : ObraUpdateInput) :
    List ObraRow × Except HttpError ObraRow :=
  match parseObraUpdate raw with
  | none => (store, .error ⟨422, "Erro de validação."⟩)
  | some payload =>
    let numeroU := payload.numero.map (fun v => zfill v 4)
    let blocoU := payload.bloco.map (fun v => v.map Char.toUpper)
    if numeroU.isNone && payload.nome.isNone && blocoU.isNone &&
        payload.endereco.isNone then
      (store, .error ⟨400, "Nenhum campo para atualizar."⟩)
    else
      let matched := store.filter (fun r => r.id = id)
      if matched.isEmpty then
        (store, .error ⟨404, "Obra não encontrada."⟩)
      else
        let store1 := store.map (fun r =>
          if r.id = id then
            applyObraUpdate numeroU payload.nome blocoU payload.endereco r
          else r)
        (store1, .ok (applyObraUpdate numeroU payload.nome blocoU payload.endereco
          (matched.headD ⟨0, 0, [], [], [], [], 0⟩)))

/-! ## Listing endpoints -/

/-- The row order requested by `order("created_at", desc=True)` on the
`empresas` table (line 115). -/
def createdDescE (a b : EmpresaRow) : Prop := b.created_at ≤ a.created_at

instance : DecidableRel createdDescE := fun _ _ => Nat.decLe _ _

instance : IsTotal EmpresaRow createdDescE :=
  ⟨fun a b => Nat.le_total b.created_at a.created_at⟩

instance : IsTrans EmpresaRow createdDescE :=
  ⟨fun _ _ _ h1 h2 => Nat.le_trans h2 h1⟩

/-- The row order requested by `order("created_at", desc=True)` on the
`obras` table (line 236). -/
def createdDescO (a b : ObraRow) : Prop := b.created_at ≤ a.created_at

instance : DecidableRel createdDescO := fun _ _ => Nat.decLe _ _

instance : IsTotal ObraRow createdDescO :=
  ⟨fun a b => Nat.le_total b.created_at a.created_at⟩

instance : IsTrans ObraRow createdDescO :=
  ⟨fun _ _ _ h1 h2 => Nat.le_trans h2 h1⟩

/-- Embedding of `listar_empresas` (lines 112-118): the store returns the
`empresas` rows ordered by `created_at` descending. -/
def listar_empresas (store : List EmpresaRow) : List EmpresaRow :=
  List.insertionSort createdDescE store

/-- Embedding of `listar_obras` (lines 233-239): the rows of the company,
ordered by `created_at` descending. -/
def listar_obras (store : List ObraRow) (empresa_id : Nat) : List ObraRow :=
  List.insertionSort createdDescO (store.filter (fun r => r.empresa_id = empresa_id))

/-- Numeric value of a digit string (to compare `numero` fields). -/
def digitsVal (s : List Char) : Nat :=
  s.foldl (fun acc c => 10 * acc + charToDigit c) 0

/-- Modelled from the spec: "list of Company records, ordered by `numero`"
(§6) — ascending order on the `numero` field. -/
def numeroLeE (a b : EmpresaRow) : Prop := digitsVal a.numero ≤ digitsVal b.numero

instance : DecidableRel numeroLeE := fun _ _ => Nat.decLe _ _

/-- Descending order on the `numero` field (the other reading of
"ordered by `numero`"). -/
def numeroGeE (a b : EmpresaRow) : Prop := digitsVal b.numero ≤ digitsVal a.numero

instance : DecidableRel numeroGeE := fun _ _ => Nat.decLe _ _

/-! ## Claims about normalization, updates and listings -/

theorem char_toNat_ofNat {n : Nat} (h : n < 55296) : (Char.ofNat n).toNat = n := by
  unfold Char.ofNat
  rw [dif_pos (Or.inl h)]
  rfl

theorem toUpper_idem (c : Char) : c.toUpper.toUpper = c.toUpper := by
  unfold Char.toUpper
  dsimp only
  by_cases h : c.toNat ≥ 97 ∧ c.toNat ≤ 122
  · rw [if_pos h, char_toNat_ofNat (show c.toNat - 32 < 55296 by omega),
      if_neg (show ¬(c.toNat - 32 ≥ 97 ∧ c.toNat - 32 ≤ 122) by omega)]
  · rw [if_neg h, if_neg h]

/-- C9: the uppercase name normalization is idempotent. -/
theorem claim_C9_normalize_name_idempotent (x : List Char) :
    normalize_name (normalize_name x) = normalize_name x := by
  unfold normalize_name
  rw [List.map_map]
  exact List.map_congr_left fun c _ => toUpper_idem c

/-- C7: updating a company or an obra with a payload in which every field
is absent yields the 400 error "Nenhum campo para atualizar." and leaves
the store untouched. -/
theorem claim_C7_empty_update_rejected (storeE : List EmpresaRow)
    (storeO : List ObraRow) (idE idO : Nat) :
    atualizar_empresa storeE idE ⟨none, none, none⟩ =
      (storeE, .error ⟨400, "Nenhum campo para atualizar."⟩) ∧
    atualizar_obra storeO idO ⟨none, none, none, none⟩ =
      (storeO, .error ⟨400, "Nenhum campo para atualizar."⟩) :=
  ⟨rfl, rfl⟩

/-- Three companies whose `created_at` ordering disagrees with both
directions of `numero` ordering. -/
def c8store : List EmpresaRow :=
  [⟨1, ['0', '0', '0', '0', '2'], ['A'], [], 30⟩,
   ⟨2, ['0', '0', '0', '0', '1'], ['B'], [], 20⟩,
   ⟨3, ['0', '0', '0', '0', '3'], ['C'], [], 10⟩]

/-- Counterexample for C8: on a concrete store the listing is ordered by
`created_at` descending, which is not an ordering by `numero` in either
direction. -/
theorem claim_C8_counterexample :
    ¬(List.Sorted numeroLeE (listar_empresas c8store) ∨
      List.Sorted numeroGeE (listar_empresas c8store)) := by
  decide

/-- C8 as amended: the listing endpoints return the records ordered by
`created_at` descending (a permutation of the stored rows for
`GET /empresas`, of the company's rows for `GET /empresas/{id}/obras`). -/
theorem claim_C8_amended_created_at_order (storeE : List EmpresaRow)
    (storeO : List ObraRow) (eid : Nat) :
    List.Sorted createdDescE (listar_empresas storeE) ∧
    List.Perm (listar_empresas storeE) storeE ∧
    List.Sorted createdDescO (listar_obras storeO eid) ∧
    List.Perm (listar_obras storeO eid)
      (storeO.filter (fun r => r.empresa_id = eid)) :=
  ⟨List.sorted_insertionSort _ _, List.perm_insertionSort _ _,
   List.sorted_insertionSort _ _, List.perm_insertionSort _ _⟩

/-! ## Claims about duplicate checking and the persistence invariant -/

/-- The persistence invariant of a company row (spec §3): `documento` is a
14-digit string passing the CNPJ algorithm and `numero` is exactly 5
decimal digits. -/
def EmpresaRowValid (r : EmpresaRow) : Prop :=
  r.documento.length = 14 ∧ r.documento.all Char.isDigit = true ∧
  is_valid_cnpj r.documento = true ∧
  r.numero.length = 5 ∧ r.numero.all Char.isDigit = true

instance (r : EmpresaRow) : Decidable (EmpresaRowValid r) := by
  unfold EmpresaRowValid; infer_instance

theorem stripNonDigits_of_all {s : List Char} (h : s.all Char.isDigit = true) :
    stripNonDigits s = s :=
  List.filter_eq_self.mpr (List.all_eq_true.mp h)

theorem stripNonDigits_all (s : List Char) :
    (stripNonDigits s).all Char.isDigit = true :=
  List.all_eq_true.mpr fun _ hx => (List.mem_filter.mp hx).2

theorem stripNonDigits_idem (s : List Char) :
    stripNonDigits (stripNonDigits s) = stripNonDigits s :=
  stripNonDigits_of_all (stripNonDigits_all s)

theorem validar_documento_some {v doc : List Char}
    (h : validar_documento v = some doc) :
    doc = stripNonDigits v ∧ doc.length = 14 ∧
      doc.all Char.isDigit = true ∧ is_valid_cnpj doc = true := by
  unfold validar_documento at h
  dsimp only at h
  by_cases h1 : (stripNonDigits v).length ≠ 14
  · rw [if_pos h1] at h
    exact absurd h (by simp)
  · rw [if_neg h1] at h
    by_cases h2 : is_valid_cnpj (stripNonDigits v) = true
    · rw [h2] at h
      simp only [Bool.not_true, Bool.false_eq_true, if_false, Option.some.injEq] at h
      subst h
      exact ⟨rfl, by omega, stripNonDigits_all v, h2⟩
    · rw [Bool.not_eq_true] at h2
      rw [h2] at h
      exact absurd h (by simp)

theorem parseEmpresa_some {i e : EmpresaInput} (h : parseEmpresa i = some e) :
    validar_numero_empresa i.numero = true ∧ e.numero = i.numero ∧
      e.nome = i.nome ∧ validar_documento i.documento = some e.documento := by
  unfold parseEmpresa at h
  by_cases hb : validar_numero_empresa i.numero = true
  · rw [hb] at h
    simp only [Bool.not_true, Bool.false_eq_true, if_false] at h
    cases hv : validar_documento i.documento with
    | none => rw [hv] at h; exact absurd h (by simp)
    | some digits =>
      rw [hv] at h
      simp only [Option.some.injEq] at h
      subst h
      exact ⟨hb, rfl, rfl, by simp [hv]⟩
  · rw [Bool.not_eq_true] at hb
    rw [hb] at h
    exact absurd h (by simp)

/-- C6: creating a company whose `documento` normalizes to the stored
`documento` of an existing valid record fails with the 400 duplicate
error and performs no insert, whatever the formatting of the raw input. -/
theorem claim_C6_duplicate_create_rejected (store : List EmpresaRow)
    (raw : EmpresaInput) (now newId : Nat) (r : EmpresaRow) (hr : r ∈ store)
    (hdoc : r.documento = stripNonDigits raw.documento)
    (hrv : EmpresaRowValid r)
    (hnum : validar_numero_empresa raw.numero = true) :
    criar_empresa store raw now newId =
      (store, .error ⟨400, "CNPJ já cadastrado."⟩) := by
  obtain ⟨hlen14, hall, hcnpj, -, -⟩ := hrv
  have hvd : validar_documento raw.documento = some r.documento := by
    unfold validar_documento
    dsimp only
    rw [← hdoc, hlen14, hcnpj]
    simp
  have hpe : parseEmpresa raw = some { raw with documento := r.documento } := by
    unfold parseEmpresa
    rw [hnum, hvd]
    simp
  unfold criar_empresa
  rw [hpe]
  dsimp only
  rw [stripNonDigits_of_all hall]
  rw [if_pos (List.length_pos_of_mem
    (List.mem_filter.mpr ⟨hr, by simp⟩))]

/-- A concrete store and raw input for the C6 witness: the raw document
carries CNPJ punctuation and collides with the stored digits. -/
def w6row : EmpresaRow :=
  ⟨7, ['0', '0', '0', '0', '1'], ['A'],
   ['1', '1', '2', '2', '2', '3', '3', '3', '0', '0', '0', '1', '8', '1'], 0⟩

def w6raw : EmpresaInput :=
  ⟨['7'], ['a'],
   ['1', '1', '.', '2', '2', '2', '.', '3', '3', '3', '/', '0', '0', '0',
    '1', '-', '8', '1']⟩

/-- Witness for C6: the punctuated raw input collides with the stored row
and the create is rejected without inserting. -/
theorem claim_C6_witness :
    criar_empresa [w6row] w6raw 5 9 =
      ([w6row], .error ⟨400, "CNPJ já cadastrado."⟩) :=
  claim_C6_duplicate_create_rejected [w6row] w6raw 5 9 w6row
    (by decide) (by decide) (by decide) (by decide)

theorem atualizarEmpresaCommit_snd_ne_dup (store : List EmpresaRow) (id : Nat)
    (numeroU nomeU : Option (List Char)) (doc : List Char) :
    (atualizarEmpresaCommit store id numeroU nomeU (some doc)).2 ≠
      Except.error ⟨400, "CNPJ já cadastrado por outra empresa."⟩ := by
  unfold atualizarEmpresaCommit
  dsimp only
  rw [Option.isNone_some, Bool.and_false]
  simp only [Bool.false_eq_true, if_false]
  split
  · simp
  · simp

/-- C10: a company update carrying a valid `documento` raises the 400
duplicate error exactly when some stored record holds that digit string
under an id different from the target id; updating a company's
`documento` to its own stored value is not rejected as a duplicate. -/
theorem claim_C10_update_duplicate_excludes_self (store : List EmpresaRow)
    (id : Nat) (raw : EmpresaUpdateInput) (v doc : List Char)
    (hdoc : raw.documento = some v)
    (hvd : validar_documento v = some doc)
    (hnum : ∀ u, raw.numero = some u → validar_numero_empresa u = true) :
    (atualizar_empresa store id raw).2 =
        Except.error ⟨400, "CNPJ já cadastrado por outra empresa."⟩ ↔
      ∃ r ∈ store, r.documento = doc ∧ r.id ≠ id := by
  obtain ⟨hstripv, hlen14, hall, hvalid⟩ := validar_documento_some hvd
  have hstrip : stripNonDigits doc = doc := stripNonDigits_of_all hall
  have hpe : parseEmpresaUpdate raw = some { raw with documento := some doc } := by
    unfold parseEmpresaUpdate
    dsimp only
    cases hnu : raw.numero with
    | none => simp [hdoc, hvd]
    | some u => simp [hdoc, hvd, hnum u hnu]
  unfold atualizar_empresa
  rw [hpe]
  dsimp only
  rw [hstrip, hvalid]
  simp only [Bool.not_true, Bool.false_eq_true, if_false]
  by_cases hany :
      (store.filter (fun r => r.documento = doc)).any (fun r => r.id ≠ id) = true
  · rw [if_pos hany]
    simp only [List.any_eq_true, List.mem_filter, decide_eq_true_eq] at hany
    obtain ⟨x, ⟨hx, hd⟩, hne⟩ := hany
    exact iff_of_true rfl ⟨x, hx, hd, hne⟩
  · rw [if_neg hany]
    refine iff_of_false (atualizarEmpresaCommit_snd_ne_dup _ _ _ _ _) ?_
    rintro ⟨x, hx, hd, hne⟩
    exact hany (by
      simp only [List.any_eq_true, List.mem_filter, decide_eq_true_eq]
      exact ⟨x, ⟨hx, hd⟩, hne⟩)

/-- A store and payload for the C10 witness: the only record holding the
digits is the target row itself. -/
def w10raw : EmpresaUpdateInput :=
  ⟨none, none,
   some ['1', '1', '.', '2', '2', '2', '.', '3', '3', '3', '/', '0', '0',
     '0', '1', '-', '8', '1']⟩

/-- Witness for C10: updating company 7's `documento` to its own stored
value is not rejected as a duplicate. -/
theorem claim_C10_witness :
    ((atualizar_empresa [w6row] 7 w10raw).2 =
        Except.error ⟨400, "CNPJ já cadastrado por outra empresa."⟩ ↔
      ∃ r ∈ [w6row],
        r.documento =
          ['1', '1', '2', '2', '2', '3', '3', '3', '0', '0', '0', '1', '8', '1'] ∧
        r.id ≠ 7) :=
  claim_C10_update_duplicate_excludes_self [w6row] 7 w10raw
    ['1', '1', '.', '2', '2', '2', '.', '3', '3', '3', '/', '0', '0', '0',
      '1', '-', '8', '1']
    ['1', '1', '2', '2', '2', '3', '3', '3', '0', '0', '0', '1', '8', '1']
    rfl (by decide) (fun u h => by simp [w10raw] at h)

/-! ## C5: the persistence invariant -/

theorem validar_numero_empresa_spec {v : List Char}
    (h : validar_numero_empresa v = true) :
    1 ≤ v.length ∧ v.length ≤ 5 ∧ v.all Char.isDigit = true := by
  unfold validar_numero_empresa at h
  simp only [Bool.and_eq_true, decide_eq_true_eq] at h
  exact ⟨h.1.1, h.1.2, h.2⟩

theorem zfill_length {s : List Char} {w : Nat} (h : s.length ≤ w) :
    (zfill s w).length = w := by
  unfold zfill
  rw [List.length_append, List.length_replicate]
  omega

theorem zfill_all_digits {s : List Char} (h : s.all Char.isDigit = true)
    (w : Nat) : (zfill s w).all Char.isDigit = true := by
  unfold zfill
  simp only [List.all_append, Bool.and_eq_true]
  refine ⟨List.all_eq_true.mpr ?_, h⟩
  intro x hx
  rw [List.eq_of_mem_replicate hx]
  decide

theorem parseEmpresaUpdate_some {i p : EmpresaUpdateInput}
    (h : parseEmpresaUpdate i = some p) :
    (∀ u, p.numero = some u → validar_numero_empresa u = true) ∧
    (∀ v, p.documento = some v →
      v.length = 14 ∧ v.all Char.isDigit = true ∧ is_valid_cnpj v = true) := by
  unfold parseEmpresaUpdate at h
  dsimp only at h
  cases hnu : i.numero with
  | none =>
    rw [hnu] at h
    cases hdo : i.documento with
    | none =>
      rw [hdo] at h
      dsimp only at h
      simp only [Bool.not_true, Bool.false_eq_true, if_false,
        Option.some.injEq] at h
      subst h
      exact ⟨fun u hu => (by rw [hnu] at hu; cases hu),
             fun v hv => (by rw [hdo] at hv; cases hv)⟩
    | some w =>
      rw [hdo] at h
      dsimp only at h
      simp only [Bool.not_true, Bool.false_eq_true, if_false] at h
      cases hv : validar_documento w with
      | none => rw [hv] at h; cases h
      | some digits =>
        rw [hv] at h
        dsimp only at h
        simp only [Option.some.injEq] at h
        subst h
        obtain ⟨-, hdl, hda, hdv⟩ := validar_documento_some hv
        refine ⟨fun u hu => (by simp at hu), fun v hvv => ?_⟩
        simp only [Option.some.injEq] at hvv
        subst hvv
        exact ⟨hdl, hda, hdv⟩
  | some u =>
    rw [hnu] at h
    dsimp only at h
    cases hb : validar_numero_empresa u with
    | false => rw [hb] at h; simp at h
    | true =>
      rw [hb] at h
      simp only [Bool.not_true, Bool.false_eq_true, if_false] at h
      cases hdo : i.documento with
      | none =>
        rw [hdo] at h
        dsimp only at h
        simp only [Option.some.injEq] at h
        subst h
        refine ⟨fun u1 hu => ?_, fun v hv => (by rw [hdo] at hv; cases hv)⟩
        rw [hnu] at hu
        simp only [Option.some.injEq] at hu
        subst hu
        exact hb
      | some w =>
        rw [hdo] at h
        dsimp only at h
        cases hv : validar_documento w with
        | none => rw [hv] at h; cases h
        | some digits =>
          rw [hv] at h
          dsimp only at h
          simp only [Option.some.injEq] at h
          subst h
          obtain ⟨-, hdl, hda, hdv⟩ := validar_documento_some hv
          refine ⟨fun u1 hu => ?_, fun v hvv => ?_⟩
          · dsimp only at hu
            simp only [Option.some.injEq] at hu
            subst hu
            exact hb
          · simp only [Option.some.injEq] at hvv
            subst hvv
            exact ⟨hdl, hda, hdv⟩


theorem applyEmpresaUpdate_valid {numeroU nomeU documentoU : Option (List Char)}
    {r : EmpresaRow} (hr : EmpresaRowValid r)
    (hn : ∀ u, numeroU = some u → u.length = 5 ∧ u.all Char.isDigit = true)
    (hd : ∀ v, documentoU = some v →
      v.length = 14 ∧ v.all Char.isDigit = true ∧ is_valid_cnpj v = true) :
    EmpresaRowValid (applyEmpresaUpdate numeroU nomeU documentoU r) := by
  obtain ⟨h1, h2, h3, h4, h5⟩ := hr
  unfold applyEmpresaUpdate EmpresaRowValid
  dsimp only
  cases numeroU with
  | none =>
    cases documentoU with
    | none => exact ⟨h1, h2, h3, h4, h5⟩
    | some v =>
      obtain ⟨d1, d2, d3⟩ := hd v rfl
      exact ⟨d1, d2, d3, h4, h5⟩
  | some u =>
    obtain ⟨n1, n2⟩ := hn u rfl
    cases documentoU with
    | none => exact ⟨h1, h2, h3, n1, n2⟩
    | some v =>
      obtain ⟨d1, d2, d3⟩ := hd v rfl
      exact ⟨d1, d2, d3, n1, n2⟩

theorem atualizarEmpresaCommit_valid (store : List EmpresaRow) (id : Nat)
    (numeroU nomeU documentoU : Option (List Char))
    (hstore : ∀ r ∈ store, EmpresaRowValid r)
    (hn : ∀ u, numeroU = some u → u.length = 5 ∧ u.all Char.isDigit = true)
    (hd : ∀ v, documentoU = some v →
      v.length = 14 ∧ v.all Char.isDigit = true ∧ is_valid_cnpj v = true) :
    ∀ r ∈ (atualizarEmpresaCommit store id numeroU nomeU documentoU).1,
      EmpresaRowValid r := by
  unfold atualizarEmpresaCommit
  dsimp only
  split
  · exact hstore
  · split
    · exact hstore
    · intro r hr
      dsimp only at hr
      obtain ⟨x, hx, rfl⟩ := List.mem_map.mp hr
      split
      · exact applyEmpresaUpdate_valid (hstore x hx) hn hd
      · exact hstore x hx

theorem numeroU_spec {payload : EmpresaUpdateInput}
    (hnum : ∀ u, payload.numero = some u → validar_numero_empresa u = true) :
    ∀ u, payload.numero.map (fun v => zfill v 5) = some u →
      u.length = 5 ∧ u.all Char.isDigit = true := by
  intro u hu
  cases hn : payload.numero with
  | none => rw [hn] at hu; cases hu
  | some v =>
    rw [hn] at hu
    simp only [Option.map_some', Option.some.injEq] at hu
    subst hu
    obtain ⟨-, h5, hall⟩ := validar_numero_empresa_spec (hnum v hn)
    exact ⟨zfill_length h5, zfill_all_digits hall 5⟩

/-- C5: every company row handed to the store by the create and update
routes satisfies the persistence invariant — `documento` is a 14-digit
string accepted by `is_valid_cnpj` and `numero` is exactly 5 decimal
digits. -/
theorem claim_C5_persistence_invariant :
    (∀ store raw now newId, (∀ r ∈ store, EmpresaRowValid r) →
      ∀ r ∈ (criar_empresa store raw now newId).1, EmpresaRowValid r) ∧
    (∀ store id raw, (∀ r ∈ store, EmpresaRowValid r) →
      ∀ r ∈ (atualizar_empresa store id raw).1, EmpresaRowValid r) := by
  constructor
  · intro store raw now newId hstore
    unfold criar_empresa
    cases hpe : parseEmpresa raw with
    | none => exact hstore
    | some empresa =>
      obtain ⟨hnum, henum, -, hvd⟩ := parseEmpresa_some hpe
      obtain ⟨-, hdlen, hdall, hdvalid⟩ := validar_documento_some hvd
      dsimp only
      split
      · exact hstore
      · intro r hr
        rcases List.mem_append.mp hr with hr | hr
        · exact hstore r hr
        · rw [List.mem_singleton] at hr
          subst hr
          obtain ⟨-, hn5, hnall⟩ :=
            validar_numero_empresa_spec (henum ▸ hnum)
          unfold EmpresaRowValid
          dsimp only
          rw [stripNonDigits_of_all hdall]
          exact ⟨hdlen, hdall, hdvalid, zfill_length hn5, zfill_all_digits hnall 5⟩
  · intro store id raw hstore
    unfold atualizar_empresa
    cases hpe : parseEmpresaUpdate raw with
    | none => exact hstore
    | some payload =>
      obtain ⟨hnumf, hdocf⟩ := parseEmpresaUpdate_some hpe
      dsimp only
      cases hdoc : payload.documento with
      | none =>
        exact atualizarEmpresaCommit_valid _ _ _ _ _ hstore
          (numeroU_spec hnumf) (fun v hv => by cases hv)
      | some doc =>
        obtain ⟨hdl, hda, hdv⟩ := hdocf doc hdoc
        dsimp only
        rw [stripNonDigits_of_all hda]
        split
        · exact hstore
        · split
          · exact hstore
          · refine atualizarEmpresaCommit_valid _ _ _ _ _ hstore
              (numeroU_spec hnumf) (fun v hv => ?_)
            simp only [Option.some.injEq] at hv
            subst hv
            exact ⟨hdl, hda, hdv⟩

/-- The raw create input for the C5 witness. -/
def w5raw : EmpresaInput :=
  ⟨['7'], ['a'],
   ['1', '1', '.', '2', '2', '2', '.', '3', '3', '3', '/', '0', '0', '0',
    '1', '-', '8', '1']⟩

/-- The row the C5 witness create inserts. -/
def w5row : EmpresaRow :=
  ⟨1, ['0', '0', '0', '0', '7'], ['A'],
   ['1', '1', '2', '2', '2', '3', '3', '3', '0', '0', '0', '1', '8', '1'], 0⟩

/-- Witness for C5: the row inserted by a concrete successful create
satisfies the invariant. -/
theorem claim_C5_witness : EmpresaRowValid w5row :=
  claim_C5_persistence_invariant.1 [] w5raw 0 1
    (fun r hr => absurd hr (List.not_mem_nil r)) w5row (by decide)

end SistemaObras
